import Mathlib

/-!
Verification of the reactive filter-and-render engine of the
ring0-auction-valuation dashboard (notebooks/hosted_v2.ipynb and the
markdown notebook variants).

Strings are modelled as lists of characters; Python str.lower / str.strip
are modelled on the ASCII fragment exercised by the sire names.  Prices and
the pre-computed statistics are modelled as exact rationals (the notebooks
use float32 columns; all claims here are about which rows/groups survive
filtering and how outputs are ordered, which the exact model captures).
-/

namespace Ring0

/-- Strings as character lists (Python `str`). -/
abbrev Str := List Char

/-- Python `str.lower()` (ASCII fragment). -/
def pyLower (s : Str) : Str := s.map Char.toLower

/-- Leading-whitespace strip (Python `str.lstrip()`). -/
def lstrip (s : Str) : Str := s.dropWhile Char.isWhitespace

/-- Trailing-whitespace strip (Python `str.rstrip()`). -/
def rstrip (s : Str) : Str := (s.reverse.dropWhile Char.isWhitespace).reverse

/-- Python `str.strip()`: drop leading and trailing whitespace. -/
def pyStrip (s : Str) : Str := rstrip (lstrip s)

/-- Python `pat in s` for strings: substring containment. -/
def pyIn (pat s : Str) : Bool := decide (pat <:+: s)

/-- One row of `only_sold.csv` (per-sale record). -/
structure SaleRecord where
  sire : Str
  description : Str
  price : ℚ
  sale_year : ℤ
  purchaser : Str
deriving DecidableEq

/-- One row of `sire_data.csv` (per-sire summary). -/
structure SireSummary where
  sire : Str
  gini_coef : ℚ
  median_price : ℚ
  avg_price : ℚ
  foals_per_year : ℚ
  years_active : ℤ
deriving DecidableEq

/-- The two options of the `data_toggle` widget: the code distinguishes them
by `value.startswith("Excluding")`. -/
inductive DataMode where
  | excluding
  | full
deriving DecidableEq

/-- pandas `Series.quantile(.95)` with the default linear interpolation:
sort ascending, take position `h = (n-1)*0.95`, interpolate between the
two neighbouring order statistics.  (On an empty column pandas yields NaN,
and `Price <= NaN` selects no row; the value returned here for `[]` is
irrelevant because filtering an empty record set yields the empty set.) -/
def quantile95 (xs : List ℚ) : ℚ :=
  let s := xs.insertionSort (· ≤ ·)
  let n := s.length
  let h : ℚ := ((n : ℚ) - 1) * (19 / 20)
  let i : ℕ := (⌊h⌋).toNat
  let lo := s.getD i 0
  let hi := s.getD (i + 1) lo
  lo + (h - (i : ℚ)) * (hi - lo)

/-- The mode step of the sales filter:
`subset_df = only_sold[only_sold.Price <= only_sold.Price.quantile(.95)]`
(computed from the full unfiltered record set) when the toggle starts with
"Excluding", the full record set otherwise. -/
def mode_filtered (records : List SaleRecord) (mode : DataMode) : List SaleRecord :=
  match mode with
  | DataMode.full => records
  | DataMode.excluding =>
      records.filter (fun r => decide (r.price ≤ quantile95 (records.map SaleRecord.price)))

/-- The sales filter of `show_box_plot` / the yearly-sales `redraw`:
pick `subset_df` or `full_df` by the data toggle, then
`if sire_multiselect.value: df = df[df["Sire"].isin(...)]`
(an empty selection tuple is falsy, so no sire filter is applied). -/
def filter_sales (records : List SaleRecord) (mode : DataMode) (sel : List Str) :
    List SaleRecord :=
  match sel with
  | [] => mode_filtered records mode
  | _ => (mode_filtered records mode).filter (fun r => decide (r.sire ∈ sel))

/-- The sire-summary filter of `show_scatter_plot` / `show_correlation_plot`:
`sire_data[(sire_data.foals_per_year >= foal_min.value) &
(sire_data.years_active.between(lo, hi))]`; pandas `between` is inclusive
on both ends. -/
def filter_sires (summary : List SireSummary) (minFoals : ℤ) (lo hi : ℤ) :
    List SireSummary :=
  summary.filter (fun r =>
    decide ((minFoals : ℚ) ≤ r.foals_per_year) &&
    (decide (lo ≤ r.years_active) && decide (r.years_active ≤ hi)))

/-- Concrete low-priced sale used to instantiate the theorems. -/
def recA : SaleRecord :=
  { sire := "A".toList, description := "a".toList, price := 1,
    sale_year := 2020, purchaser := "P".toList }

/-- Concrete high-priced sale (above the two-row 95th percentile). -/
def recB : SaleRecord :=
  { sire := "B".toList, description := "b".toList, price := 100,
    sale_year := 2021, purchaser := "Q".toList }

/-- C2: a row surviving `filter_sales` in excluding-outliers mode has price
at most the 95th percentile of the price column of the *full unfiltered*
record set, for every sire selection: the threshold is a function of the
record set alone and is applied before (and unchanged by) the
sire-membership filter. -/
theorem filter_sales_excluding_le_quantile
    (records : List SaleRecord) (sel : List Str) (r : SaleRecord)
    (hr : r ∈ filter_sales records DataMode.excluding sel) :
    r.price ≤ quantile95 (records.map SaleRecord.price) := by
  have hmode : r ∈ mode_filtered records DataMode.excluding := by
    cases sel with
    | nil => simpa [filter_sales] using hr
    | cons a t =>
        simp only [filter_sales] at hr
        exact (List.mem_filter.mp hr).1
  simp only [mode_filtered] at hmode
  have := (List.mem_filter.mp hmode).2
  exact of_decide_eq_true this

/-- Witness for C2 at a concrete two-row record set with prices 1 and 100
(95th percentile 95.05): the surviving row has price 1 ≤ 95.05. -/
theorem filter_sales_excluding_le_quantile_witness :
    recA.price ≤ quantile95 ([recA, recB].map SaleRecord.price) :=
  filter_sales_excluding_le_quantile [recA, recB] ["A".toList] recA (by
    norm_num [filter_sales, mode_filtered, quantile95, List.insertionSort,
      List.orderedInsert, recA, recB])

/-- C7: with an empty sire selection `filter_sales` returns all mode-filtered
rows; with a non-empty selection it returns exactly the mode-filtered rows
whose sire is selected; the mode filter is applied before the sire filter,
and the result is a sublist of the input (original row order preserved). -/
theorem filter_sales_selection_spec
    (records : List SaleRecord) (mode : DataMode) (sel : List Str) :
    (sel = [] → filter_sales records mode sel = mode_filtered records mode) ∧
    (sel ≠ [] →
      filter_sales records mode sel =
        (mode_filtered records mode).filter (fun r => decide (r.sire ∈ sel)) ∧
      ∀ r, r ∈ filter_sales records mode sel ↔
        r ∈ mode_filtered records mode ∧ r.sire ∈ sel) ∧
    (filter_sales records mode sel).Sublist records := by
  refine ⟨?_, ?_, ?_⟩
  · rintro rfl; rfl
  · intro hne
    cases sel with
    | nil => exact absurd rfl hne
    | cons a t =>
        refine ⟨rfl, fun r => ?_⟩
        simp [filter_sales, List.mem_filter]
  · have hsub : (mode_filtered records mode).Sublist records := by
      cases mode with
      | full => exact List.Sublist.refl _
      | excluding => exact List.filter_sublist _
    cases sel with
    | nil => exact hsub
    | cons a t => exact List.Sublist.trans (List.filter_sublist _) hsub

/-- Witness for C7 at the concrete two-row record set: with the empty
selection both rows of the full-mode filter survive, and with selection
{"B"} exactly the B-row survives. -/
theorem filter_sales_selection_spec_witness :
    filter_sales [recA, recB] DataMode.full [] = mode_filtered [recA, recB] DataMode.full ∧
    (recB ∈ filter_sales [recA, recB] DataMode.full ["B".toList] ↔
      recB ∈ mode_filtered [recA, recB] DataMode.full ∧ recB.sire ∈ ["B".toList]) :=
  ⟨(filter_sales_selection_spec [recA, recB] DataMode.full []).1 rfl,
   ((filter_sales_selection_spec [recA, recB] DataMode.full ["B".toList]).2.1
      (by decide)).2 recB⟩

/-- C8: `filter_sires` retains exactly the rows with `foals_per_year ≥
min_foals` and `years_active` in the inclusive range `[lo, hi]`; a
non-positive minimum is a no-op on tables whose foal counts are
non-negative; and an inverted range yields the empty result. -/
theorem filter_sires_spec (summary : List SireSummary) (minFoals lo hi : ℤ) :
    (∀ r, r ∈ filter_sires summary minFoals lo hi ↔
        r ∈ summary ∧ (minFoals : ℚ) ≤ r.foals_per_year ∧
          lo ≤ r.years_active ∧ r.years_active ≤ hi) ∧
    (minFoals ≤ 0 → (∀ r ∈ summary, 0 ≤ r.foals_per_year) →
      filter_sires summary minFoals lo hi =
        summary.filter (fun r => decide (lo ≤ r.years_active) &&
          decide (r.years_active ≤ hi))) ∧
    (hi < lo → filter_sires summary minFoals lo hi = []) := by
  refine ⟨fun r => ?_, fun hm hpos => ?_, fun hinv => ?_⟩
  · simp [filter_sires, List.mem_filter, and_assoc]
  · apply List.filter_congr
    intro r hr
    have h0 : (0 : ℚ) ≤ r.foals_per_year := hpos r hr
    have hq : (minFoals : ℚ) ≤ 0 := by exact_mod_cast hm
    simp [hq.trans h0]
  · apply List.filter_eq_nil_iff.mpr
    intro r _
    simp only [Bool.and_eq_true, decide_eq_true_eq, not_and]
    intro _ hlo hhi
    exact absurd (hlo.trans hhi) (not_le.mpr hinv)

/-- Concrete sire-summary row used to instantiate the theorems. -/
def sumA : SireSummary :=
  { sire := "A".toList, gini_coef := 1/2, median_price := 10,
    avg_price := 12, foals_per_year := 5, years_active := 3 }

/-- Witness for C8 at a concrete one-row table: the row passes the filter
for bounds (0, 1, 5); min_foals = -1 is a no-op there; range (5, 1) is
empty. -/
theorem filter_sires_spec_witness :
    (sumA ∈ filter_sires [sumA] 0 1 5 ↔
      sumA ∈ [sumA] ∧ ((0 : ℤ) : ℚ) ≤ sumA.foals_per_year ∧
        1 ≤ sumA.years_active ∧ sumA.years_active ≤ 5) ∧
    filter_sires [sumA] (-1) 1 5 =
      [sumA].filter (fun r => decide ((1:ℤ) ≤ r.years_active) &&
        decide (r.years_active ≤ (5:ℤ))) ∧
    filter_sires [sumA] 0 5 1 = [] :=
  ⟨(filter_sires_spec [sumA] 0 1 5).1 sumA,
   (filter_sires_spec [sumA] (-1) 1 5).2.1 (by decide) (by norm_num [sumA]),
   (filter_sires_spec [sumA] 0 5 1).2.2 (by decide)⟩

/-- The dependent-option resolver `_filter_sires` (hosted_v2) /
`_filter_options` (markdown variants):
`pat = search.value.strip().lower()`,
`opts = [o for o in all_sires if pat in o.lower()]`,
`value = tuple(o for o in keep if o in opts)`. -/
def resolve_options (all_sires : List Str) (search : Str) (keep : List Str) :
    List Str × List Str :=
  let pat := pyLower (pyStrip search)
  let opts := all_sires.filter (fun o => pyIn pat (pyLower o))
  (opts, keep.filter (fun o => decide (o ∈ opts)))

/-- Option set as claim C3 words it: every sire name containing the raw
search text (not stripped) as a case-insensitive substring. -/
def claimed_options (all_sires : List Str) (search : Str) : List Str :=
  all_sires.filter (fun o => pyIn (pyLower search) (pyLower o))

/-- An element at the head of a `dropWhile p` result fails `p`. -/
theorem dropWhile_cons_false {p : Char → Bool} {l t : Str} {a : Char}
    (h : l.dropWhile p = a :: t) : p a = false := by
  induction l with
  | nil => simp [List.dropWhile] at h
  | cons b l ih =>
      rw [List.dropWhile_cons] at h
      by_cases hb : p b = true
      · rw [if_pos hb] at h; exact ih h
      · rw [if_neg hb] at h
        cases h
        simpa using hb

/-- `dropWhile` is idempotent. -/
theorem dropWhile_dropWhile (p : Char → Bool) (l : Str) :
    (l.dropWhile p).dropWhile p = l.dropWhile p := by
  cases h : l.dropWhile p with
  | nil => simp
  | cons a t =>
      rw [List.dropWhile_cons, if_neg (by simp [dropWhile_cons_false h])]

/-- `dropWhile` only removes a leading segment. -/
theorem exists_append_dropWhile (p : Char → Bool) (l : Str) :
    ∃ u, l = u ++ l.dropWhile p := by
  induction l with
  | nil => exact ⟨[], rfl⟩
  | cons a t ih =>
      rw [List.dropWhile_cons]
      by_cases ha : p a = true
      · obtain ⟨u, hu⟩ := ih
        exact ⟨a :: u, by rw [if_pos ha, List.cons_append, ← hu]⟩
      · exact ⟨[], by simp [ha]⟩

/-- A nonempty `rstrip` result starts with the first character of its
input. -/
theorem rstrip_cons {s t : Str} {a : Char} (h : rstrip s = a :: t) :
    ∃ t', s = a :: t' := by
  unfold rstrip at h
  have h2 : s.reverse.dropWhile Char.isWhitespace = (a :: t).reverse := by
    rw [← h, List.reverse_reverse]
  obtain ⟨u, hu⟩ := exists_append_dropWhile Char.isWhitespace s.reverse
  rw [h2] at hu
  have hs : s = (u ++ (a :: t).reverse).reverse := by
    rw [← hu, List.reverse_reverse]
  refine ⟨t ++ u.reverse, ?_⟩
  rw [hs]
  simp

/-- `rstrip` is idempotent. -/
theorem rstrip_rstrip (s : Str) : rstrip (rstrip s) = rstrip s := by
  unfold rstrip
  rw [List.reverse_reverse, dropWhile_dropWhile]

/-- Python `strip` is idempotent. -/
theorem pyStrip_idem (s : Str) : pyStrip (pyStrip s) = pyStrip s := by
  unfold pyStrip
  have hl : lstrip (rstrip (lstrip s)) = rstrip (lstrip s) := by
    cases hz : rstrip (lstrip s) with
    | nil => rfl
    | cons a t =>
        obtain ⟨t', ht'⟩ := rstrip_cons hz
        have ha : Char.isWhitespace a = false :=
          dropWhile_cons_false (l := s) (p := Char.isWhitespace) ht'
        show List.dropWhile Char.isWhitespace (a :: t) = a :: t
        rw [List.dropWhile_cons, if_neg (by simp [ha])]
  rw [hl, rstrip_rstrip]

/-- Stripping a whitespace-only string yields the empty string. -/
theorem pyStrip_eq_nil_of_ws {s : Str} (h : ∀ c ∈ s, c.isWhitespace) :
    pyStrip s = [] := by
  have h1 : lstrip s = [] := by
    simpa [lstrip] using List.dropWhile_eq_nil_iff.mpr h
  simp [pyStrip, h1, rstrip]

/-- C3 counterexample: with the sire list `["Ab"]` and search text `" b "`,
the code keeps `"Ab"` (it matches the stripped pattern `"b"`), while the
claimed raw-substring filter keeps nothing — `" b "` is not a substring of
`"ab"`. -/
theorem resolve_options_ne_claimed_options :
    (resolve_options ["Ab".toList] " b ".toList []).1 ≠
      claimed_options ["Ab".toList] " b ".toList := by
  decide

/-- C3 (amended): the options returned by `resolve_options` are exactly the
names containing the *stripped* search text as a case-insensitive
substring, in the original order of `all_sires` (the output is a sublist
of `all_sires`). -/
theorem resolve_options_options_spec (all_sires : List Str) (s : Str)
    (keep : List Str) :
    (∀ o, o ∈ (resolve_options all_sires s keep).1 ↔
        o ∈ all_sires ∧ pyIn (pyLower (pyStrip s)) (pyLower o) = true) ∧
    (resolve_options all_sires s keep).1.Sublist all_sires := by
  constructor
  · intro o
    simp [resolve_options, List.mem_filter]
  · exact List.filter_sublist _

/-- C4: the new selection is exactly the members of the current selection
that are still present in the new options, in the relative order of the
current selection (the output is a sublist of the current selection). -/
theorem resolve_options_selection_spec (all_sires : List Str) (s : Str)
    (keep : List Str) :
    (∀ o, o ∈ (resolve_options all_sires s keep).2 ↔
        o ∈ keep ∧ o ∈ (resolve_options all_sires s keep).1) ∧
    (resolve_options all_sires s keep).2.Sublist keep := by
  constructor
  · intro o
    simp [resolve_options, List.mem_filter]
  · exact List.filter_sublist _

/-- C9: the resolver is invariant under stripping the search text, and a
whitespace-only search text behaves exactly like the empty search text. -/
theorem resolve_options_strip_invariant (all_sires : List Str) (s : Str)
    (keep : List Str) :
    resolve_options all_sires s keep =
      resolve_options all_sires (pyStrip s) keep ∧
    ((∀ c ∈ s, c.isWhitespace) →
      resolve_options all_sires s keep = resolve_options all_sires [] keep) := by
  constructor
  · simp [resolve_options, pyStrip_idem]
  · intro h
    have hnil : pyStrip s = [] := pyStrip_eq_nil_of_ws h
    have h0 : pyStrip ([] : Str) = [] := rfl
    simp [resolve_options, hnil, h0]

/-- C10: with the empty search text the resolver is the identity on a valid
state — all options are restored and a selection drawn from `all_sires`
is kept unchanged. -/
theorem resolve_options_empty_search (all_sires : List Str) (keep : List Str)
    (h : ∀ x ∈ keep, x ∈ all_sires) :
    resolve_options all_sires [] keep = (all_sires, keep) := by
  have hopts : all_sires.filter
      (fun o => pyIn (pyLower (pyStrip [])) (pyLower o)) = all_sires := by
    apply List.filter_eq_self.mpr
    intro a _
    simp [pyIn, pyStrip, lstrip, rstrip, pyLower]
  simp only [resolve_options, hopts]
  congr 1
  apply List.filter_eq_self.mpr
  intro a ha
  simpa using h a ha

/-- Witness for C10: with sires `["Aa", "Bb"]`, selection `["Bb"]` and the
empty search text, the resolver returns the full option list and keeps the
selection. -/
theorem resolve_options_empty_search_witness :
    resolve_options ["Aa".toList, "Bb".toList] [] ["Bb".toList] =
      (["Aa".toList, "Bb".toList], ["Bb".toList]) :=
  resolve_options_empty_search ["Aa".toList, "Bb".toList] ["Bb".toList]
    (by decide)

/-- One `groupby("years_active")` group: the rows of the table whose
`years_active` equals `k`, in original row order. -/
def groupRows (rows : List SireSummary) (k : ℤ) : List SireSummary :=
  rows.filter (fun r => decide (r.years_active = k))

/-- Arithmetic mean of a rational column. -/
def qmean (xs : List ℚ) : ℚ := xs.sum / xs.length

/-- Sufficient statistics of the Pearson correlation between
`gini_coef` and `median_price` within one group: the centred cross sum and
the two centred square sums.  The Pearson value computed by pandas is
`sxy / √(sxx · syy)`; the statistics determine it exactly. -/
structure PearsonStats where
  sxy : ℚ
  sxx : ℚ
  syy : ℚ
deriving DecidableEq

/-- Centred sums of a group, as computed by `pandas.Series.corr` with the
default Pearson method. -/
def pearsonStats (g : List SireSummary) : PearsonStats :=
  let xbar := qmean (g.map SireSummary.gini_coef)
  let ybar := qmean (g.map SireSummary.median_price)
  { sxy := (g.map (fun r => (r.gini_coef - xbar) * (r.median_price - ybar))).sum,
    sxx := (g.map (fun r => (r.gini_coef - xbar) ^ 2)).sum,
    syy := (g.map (fun r => (r.median_price - ybar) ^ 2)).sum }

/-- The result of `g["gini_coef"].corr(g["median_price"])` for one group:
pandas yields NaN — here `none` — exactly when the group has fewer than two
members or either centred square sum (variance numerator) is zero; the
subsequent `.dropna()` removes those groups. -/
def seriesCorr (g : List SireSummary) : Option PearsonStats :=
  if 2 ≤ g.length ∧ (pearsonStats g).sxx ≠ 0 ∧ (pearsonStats g).syy ≠ 0 then
    some (pearsonStats g)
  else none

/-- The group keys produced by `groupby("years_active")`: the distinct
`years_active` values in ascending order. -/
def yearKeys (rows : List SireSummary) : List ℤ :=
  ((rows.map SireSummary.years_active).dedup).insertionSort (· ≤ ·)

/-- The correlation table of `show_correlation_plot` / the correlation
`redraw`: group by `years_active`, compute the Pearson correlation of
`gini_coef` against `median_price` per group, drop the NaN groups, and
keep ascending key order (`sort_values("years_active")` on the
already-ascending groupby output). -/
def correlation_by_year (rows : List SireSummary) : List (ℤ × PearsonStats) :=
  (yearKeys rows).filterMap
    (fun k => (seriesCorr (groupRows rows k)).map (fun st => (k, st)))

/-- Unfolding of `seriesCorr` into its defining conditions. -/
theorem seriesCorr_eq_some {g : List SireSummary} {st : PearsonStats} :
    seriesCorr g = some st ↔
      (2 ≤ g.length ∧ (pearsonStats g).sxx ≠ 0 ∧ (pearsonStats g).syy ≠ 0) ∧
        st = pearsonStats g := by
  unfold seriesCorr
  split <;> simp_all [eq_comm]

/-- Membership in the groupby key list is membership of the value in the
`years_active` column. -/
theorem mem_yearKeys {rows : List SireSummary} {k : ℤ} :
    k ∈ yearKeys rows ↔ ∃ r ∈ rows, r.years_active = k := by
  unfold yearKeys
  rw [(List.perm_insertionSort _ _).mem_iff, List.mem_dedup, List.mem_map]

/-- The keys surviving the NaN-dropping step form a sublist of the groupby
key list. -/
theorem fsts_sublist_keys (keys : List ℤ) (f : ℤ → Option PearsonStats) :
    ((keys.filterMap (fun k => (f k).map (fun st => (k, st)))).map
      Prod.fst).Sublist keys := by
  induction keys with
  | nil => simp
  | cons a t ih =>
      rw [List.filterMap_cons]
      cases h : f a with
      | none => simpa [h] using ih.cons a
      | some st => simpa [h] using ih.cons₂ a

/-- C5: `correlation_by_year` contains an entry for a year key `k` exactly
when the `years_active = k` group has at least two members and nonzero
centred square sums in both variables, the entry carrying the Pearson
statistics of that group; excluded groups are absent (never emitted as a
NaN or zero placeholder), and the emitted keys are strictly increasing,
so the output is ascending in `years_active` with one entry per group. -/
theorem correlation_by_year_spec (rows : List SireSummary) :
    (∀ k st, (k, st) ∈ correlation_by_year rows ↔
        2 ≤ (groupRows rows k).length ∧
        (pearsonStats (groupRows rows k)).sxx ≠ 0 ∧
        (pearsonStats (groupRows rows k)).syy ≠ 0 ∧
        st = pearsonStats (groupRows rows k)) ∧
    ((correlation_by_year rows).map Prod.fst).Pairwise (· < ·) := by
  constructor
  · intro k st
    constructor
    · intro hmem
      obtain ⟨k', _, hf⟩ := List.mem_filterMap.mp hmem
      obtain ⟨st', hsome, hpair⟩ := Option.map_eq_some'.mp hf
      obtain ⟨hk, hst⟩ := Prod.mk.injEq .. ▸ hpair
      subst hk
      obtain ⟨⟨h2, hx, hy⟩, hval⟩ := seriesCorr_eq_some.mp hsome
      exact ⟨h2, hx, hy, hst ▸ hval⟩
    · rintro ⟨h2, hx, hy, rfl⟩
      apply List.mem_filterMap.mpr
      refine ⟨k, ?_, ?_⟩
      · apply mem_yearKeys.mpr
        have hne : groupRows rows k ≠ [] := by
          intro hnil
          rw [hnil] at h2
          simp at h2
        obtain ⟨r, hr⟩ := List.exists_mem_of_ne_nil _ hne
        have := List.mem_filter.mp hr
        exact ⟨r, this.1, of_decide_eq_true this.2⟩
      · rw [seriesCorr_eq_some.mpr ⟨⟨h2, hx, hy⟩, rfl⟩]
        rfl
  · have hsorted : (yearKeys rows).Sorted (· ≤ ·) :=
      List.sorted_insertionSort _ _
    have hnodup : (yearKeys rows).Nodup :=
      (List.perm_insertionSort _ _).symm.nodup
        (List.nodup_dedup _)
    exact (hsorted.lt_of_le hnodup).sublist (fsts_sublist_keys _ _)

/-- Second row of the two-member perfectly varying group used to
instantiate C5. -/
def sumB : SireSummary :=
  { sire := "B".toList, gini_coef := 1, median_price := 20,
    avg_price := 22, foals_per_year := 7, years_active := 3 }

/-- Lone row forming a single-member group, excluded from the correlation
output. -/
def sumC : SireSummary :=
  { sire := "C".toList, gini_coef := 1/4, median_price := 5,
    avg_price := 6, foals_per_year := 3, years_active := 1 }

/-- Witness for C5 on a concrete table with a two-member group
(years_active 3, distinct gini and median values) and a single-member
group (years_active 1): the two-member group appears with its Pearson
statistics and the singleton group is absent. -/
theorem correlation_by_year_spec_witness :
    (3, pearsonStats (groupRows [sumC, sumA, sumB] 3)) ∈
      correlation_by_year [sumC, sumA, sumB] ∧
    ∀ st, (1, st) ∉ correlation_by_year [sumC, sumA, sumB] :=
  ⟨((correlation_by_year_spec [sumC, sumA, sumB]).1 3 _).mpr
    (by
      refine ⟨?_, ?_, ?_, rfl⟩ <;>
        norm_num [groupRows, pearsonStats, qmean, sumA, sumB, sumC]),
   fun st h => by
      have := ((correlation_by_year_spec [sumC, sumA, sumB]).1 1 st).mp h
      revert this
      norm_num [groupRows, pearsonStats, qmean, sumA, sumB, sumC]⟩

/-- A visual artifact dispatched to the output region: one of the three
chart kinds, or the explicit "No data after filters." text state. -/
inductive Artifact where
  | box : List SaleRecord → Artifact
  | scatter : List SireSummary → Artifact
  | line : List (ℤ × PearsonStats) → Artifact
  | noData
deriving DecidableEq

/-- hosted_v2 `show_correlation_plot`: filter the summary table, compute the
per-year correlations and emit the line chart — with no empty-result
check. -/
def show_correlation_plot (sireData : List SireSummary) (minFoals lo hi : ℤ) :
    Artifact :=
  Artifact.line (correlation_by_year (filter_sires sireData minFoals lo hi))

/-- The correlation `redraw` of the markdown notebook variant: after
`clear_output(wait=True)`, print "No data after filters." and return when
`corr_by_year.empty`, otherwise draw the line chart. -/
def correlation_redraw (sireData : List SireSummary) (minFoals lo hi : ℤ) :
    Artifact :=
  if correlation_by_year (filter_sires sireData minFoals lo hi) = [] then
    Artifact.noData
  else Artifact.line (correlation_by_year (filter_sires sireData minFoals lo hi))

/-- Output-region contents after the markdown correlation `redraw` runs
inside `with plot_out: plot_out.clear_output(wait=True); ...`: the previous
contents are cleared and exactly the new artifact is shown. -/
def redraw_region (_prev : List Artifact) (sireData : List SireSummary)
    (minFoals lo hi : ℤ) : List Artifact :=
  [correlation_redraw sireData minFoals lo hi]

/-- The one-row table `[sumC]` passes the `filter_sires` bounds `(0, 0, 5)`
unchanged, and its single one-member group is dropped, leaving an empty
correlation table. -/
theorem corr_single_row_empty :
    correlation_by_year (filter_sires [sumC] 0 0 5) = [] := by
  have hf : filter_sires [sumC] 0 0 5 = [sumC] := by
    norm_num [filter_sires, sumC]
  rw [hf]
  norm_num [correlation_by_year, yearKeys, groupRows, seriesCorr, sumC,
    List.insertionSort, List.orderedInsert, List.filterMap_cons]

/-- C6 counterexample: on a table whose only group is a singleton, the
hosted_v2 correlation view emits an empty line chart, not the explicit
no-data state the claim requires of the system. -/
theorem show_correlation_plot_empty_not_noData :
    show_correlation_plot [sumC] 0 0 5 = Artifact.line [] ∧
      Artifact.line [] ≠ Artifact.noData := by
  constructor
  · rw [show_correlation_plot, corr_single_row_empty]
  · simp

/-- C6 (amended): the markdown-variant correlation `redraw` renders the
explicit no-data state exactly when the aggregated result is empty and the
line chart otherwise; the no-data state is distinguishable from every
chart (including a zero-valued one); and clear-then-draw leaves the output
region holding only the new artifact, never the previously drawn chart. -/
theorem correlation_redraw_spec (sireData : List SireSummary)
    (minFoals lo hi : ℤ) :
    (correlation_by_year (filter_sires sireData minFoals lo hi) = [] →
      correlation_redraw sireData minFoals lo hi = Artifact.noData) ∧
    (correlation_by_year (filter_sires sireData minFoals lo hi) ≠ [] →
      correlation_redraw sireData minFoals lo hi =
        Artifact.line (correlation_by_year (filter_sires sireData minFoals lo hi))) ∧
    (∀ prev, redraw_region prev sireData minFoals lo hi =
      [correlation_redraw sireData minFoals lo hi]) ∧
    (∀ l, Artifact.line l ≠ Artifact.noData) := by
  refine ⟨fun h => ?_, fun h => ?_, fun _ => rfl, fun l => by simp⟩
  · rw [correlation_redraw, if_pos h]
  · rw [correlation_redraw, if_neg h]

/-- Witness for C6 on the singleton-group table: the markdown redraw shows
the explicit no-data state there. -/
theorem correlation_redraw_spec_witness :
    correlation_redraw [sumC] 0 0 5 = Artifact.noData :=
  (correlation_redraw_spec [sumC] 0 0 5).1 corr_single_row_empty

/-- The three entries of the `plot_picker` ToggleButtons. -/
inductive ViewId where
  | yearly
  | performance
  | correlation
deriving DecidableEq

/-- Current values of the shared input widgets. -/
structure Controls where
  dataMode : DataMode
  search : Str
  options : List Str
  selection : List Str
  minFoals : ℤ
  yearLo : ℤ
  yearHi : ℤ
deriving DecidableEq

/-- State of the hosted_v2 app: selected view, widget values, and the
artifact currently shown in the shared `plot_out` region. -/
structure AppState where
  view : Option ViewId
  ctrls : Controls
  displayed : Option Artifact
deriving DecidableEq

/-- The body of hosted_v2 `render_plot` for a given view: clear the region
and draw the chart of that view from the current widget values. -/
def render_plot (onlySold : List SaleRecord) (sireData : List SireSummary)
    (v : ViewId) (c : Controls) : Artifact :=
  match v with
  | ViewId.yearly => Artifact.box (filter_sales onlySold c.dataMode c.selection)
  | ViewId.performance =>
      Artifact.scatter (filter_sires sireData c.minFoals c.yearLo c.yearHi)
  | ViewId.correlation => show_correlation_plot sireData c.minFoals c.yearLo c.yearHi

/-- One control-value change event. -/
inductive Event where
  | setView (v : ViewId)
  | setDataMode (m : DataMode)
  | setSearch (s : Str)
  | setSelection (sel : List Str)
  | setMinFoals (n : ℤ)
  | setYearRange (lo hi : ℤ)

/-- Event handling in hosted_v2.  Exactly two observers are registered:
`plot_picker.observe(render_plot, names="value")` and
`sire_search.observe(_filter_sires, names="value")`.  A change of the data
toggle, the sire multi-select, the minimum-foals input or the years-active
slider therefore updates the widget value only; nothing recomputes or
redraws the output region. -/
def hostedStep (onlySold : List SaleRecord) (sireData : List SireSummary)
    (allSires : List Str) (st : AppState) : Event → AppState
  | Event.setView v =>
      { st with
        view := some v,
        displayed := some (render_plot onlySold sireData v st.ctrls) }
  | Event.setSearch s =>
      let res := resolve_options allSires s st.ctrls.selection
      { st with ctrls :=
          { st.ctrls with search := s, options := res.1, selection := res.2 } }
  | Event.setDataMode m => { st with ctrls := { st.ctrls with dataMode := m } }
  | Event.setSelection sel => { st with ctrls := { st.ctrls with selection := sel } }
  | Event.setMinFoals n => { st with ctrls := { st.ctrls with minFoals := n } }
  | Event.setYearRange lo hi =>
      { st with ctrls := { st.ctrls with yearLo := lo, yearHi := hi } }

/-- Default widget values at startup: excluding-outliers mode, empty search,
all sires offered, none selected, minimum foals 10, full year range. -/
def ctrls0 : Controls :=
  { dataMode := DataMode.excluding, search := [],
    options := ["A".toList, "B".toList], selection := [],
    minFoals := 10, yearLo := 0, yearHi := 7 }

/-- Startup app state: no view rendered yet. -/
def st0 : AppState := { view := none, ctrls := ctrls0, displayed := none }

/-- State after the initial `plot_picker.value = "Yearly Sales Data"`. -/
def st1 : AppState :=
  hostedStep [recA, recB] [sumA] ["A".toList, "B".toList] st0
    (Event.setView ViewId.yearly)

/-- State after the user then toggles the data mode to "Full". -/
def st2 : AppState :=
  hostedStep [recA, recB] [sumA] ["A".toList, "B".toList] st1
    (Event.setDataMode DataMode.full)

/-- C1 failing run: with the yearly view active over prices {1, 100}
(95th percentile 95.05), toggling the data mode to "Full" leaves the box
plot of the excluding-mode rows `[recA]` on screen, which differs from the
box plot of all rows that the current ControlState prescribes — the stale
frame persists because hosted_v2 registers no observer on the data
toggle. -/
theorem hosted_stale_after_toggle :
    st2.ctrls.dataMode = DataMode.full ∧
    st2.displayed = some (Artifact.box [recA]) ∧
    st2.displayed ≠
      some (render_plot [recA, recB] [sumA] ViewId.yearly st2.ctrls) := by
  have hexc : filter_sales [recA, recB] DataMode.excluding [] = [recA] := by
    norm_num [filter_sales, mode_filtered, quantile95, List.insertionSort,
      List.orderedInsert, recA, recB]
  have hfull : filter_sales [recA, recB] DataMode.full [] = [recA, recB] := rfl
  refine ⟨rfl, ?_, ?_⟩
  · show some (render_plot [recA, recB] [sumA] ViewId.yearly ctrls0) =
      some (Artifact.box [recA])
    rw [render_plot]
    show some (Artifact.box (filter_sales [recA, recB] DataMode.excluding [])) = _
    rw [hexc]
  · show some (render_plot [recA, recB] [sumA] ViewId.yearly ctrls0) ≠ _
    rw [render_plot]
    show some (Artifact.box (filter_sales [recA, recB] DataMode.excluding [])) ≠
      some (Artifact.box (filter_sales [recA, recB] DataMode.full []))
    rw [hexc, hfull]
    simp [recA, recB]

end Ring0
